import Mathlib

/-!
Shallow embedding of the KjohnReactSnake game engine (src/src/Snake.tsx) and
verification of the specification's claims about it.

Modelling conventions:
* JS numbers are modelled as `ℚ` (all values the engine manipulates are exact
  rationals: integers, or results of division by 20); board coordinates, which
  only ever change by ±1, are modelled as `ℤ`; the board dimension as `ℕ`.
* Optional props are `Option ℚ`; JS truthiness of a number (`v && cond`) is
  `v ≠ 0 ∧ cond`, since `0` (and a missing value) is falsy.
* `Math.random()` is modelled as an oracle stream `ℕ → ℚ × ℚ` of draws in
  `[0,1)`; the unbounded do-while of `getNextFood` becomes a fuel-indexed
  recursion returning `Option Coordinate`.
* The React refs/state pairs (`gameRunning`/`gameRunningState`, `snake`/`player`,
  `foodRef`/`food`) always track each other at command boundaries and are
  collapsed to single fields.  The `useEffect` on `gameRunningState` runs
  `playGame()` (one immediate `updatePlayer`) whenever the run flag turns on;
  a toggle command therefore performs the flag flips of `pauseStartGame`
  followed by that effect.  Scheduled timer callbacks fire `updatePlayer` only
  while `gameRunning.current` is set, which the `tick` command reflects.
-/

namespace KjohnSnake

/-- A board cell: `interface ICoordinate { x: number; y: number }`. -/
structure Coordinate where
  x : Int
  y : Int
deriving DecidableEq, Repr

/-- `enum PlayDirection { Up, Down, Left, Right }`. -/
inductive PlayDirection
  | up
  | down
  | left
  | right
deriving DecidableEq, Repr

/-- The opposite-direction table of the spec's data model (Up↔Down, Left↔Right). -/
def oppositeDirection : PlayDirection → PlayDirection
  | .up => .down
  | .down => .up
  | .left => .right
  | .right => .left

/-- `validateDirection(d1, d2)`: returns `true` unless the pair is equal or an
exact opposite (`if(!((d1===d2) || opposite-pairs)) return true; return false`). -/
def validateDirection (d1 d2 : PlayDirection) : Bool :=
  if (d1 = d2) ∨
     (d1 = .up ∧ d2 = .down) ∨
     (d1 = .down ∧ d2 = .up) ∨
     (d1 = .left ∧ d2 = .right) ∨
     (d1 = .right ∧ d2 = .left) then
    false
  else
    true

/-- `foodExpansion` memo: `expansionRate && expansionRate > 0 ? expansionRate : 1`.
The leading conjunct is JS truthiness of the number. -/
def foodExpansion (expansionRate : Option ℚ) : ℚ :=
  match expansionRate with
  | some r => if r ≠ 0 ∧ 0 < r then r else 1
  | none => 1

/-- `gameFoodPoints` memo: `foodPoints && foodPoints > 0 ? foodPoints : 1`. -/
def gameFoodPoints (foodPoints : Option ℚ) : ℚ :=
  match foodPoints with
  | some p => if p ≠ 0 ∧ 0 < p then p else 1
  | none => 1

/-- `interface IGameSpeed`. -/
structure IGameSpeed where
  speedFoodQuantity : ℚ
  speedDecreaseRate : ℚ
  initialSpeed : ℚ
  minSpeed : ℚ
deriving DecidableEq, Repr

/-- `gameSpeedSettings` memo, field by field.  Each guard starts with the JS
truthiness test of the raw prop, so a provided value of `0` always falls back
to the default. -/
def gameSpeedSettings (initialSpeed speedDecreaseRate speedFoodQuantity minSpeed :
    Option ℚ) : IGameSpeed :=
  let baseSpeed : ℚ :=
    match initialSpeed with
    | some v => if v ≠ 0 ∧ 100 < v ∧ v < 1000 then v else 250
    | none => 250
  { initialSpeed := baseSpeed
    speedDecreaseRate :=
      match speedDecreaseRate with
      | some v => if v ≠ 0 ∧ 0 ≤ v ∧ v ≤ 10 then v else 1
      | none => 1
    speedFoodQuantity :=
      match speedFoodQuantity with
      | some v => if v ≠ 0 ∧ 0 < v then v else 10
      | none => 10
    minSpeed :=
      match minSpeed with
      | some v => if v ≠ 0 ∧ 0 < v ∧ v < baseSpeed then v else 50
      | none => 50 }

/-- The validated per-session configuration derived from the props. -/
structure GameConfig where
  gameDimension : Nat
  foodExpansion : ℚ
  gameFoodPoints : ℚ
  speed : IGameSpeed
deriving DecidableEq, Repr

/-- Bundles the memoized validators applied to the raw optional props. -/
def mkGameConfig (gameDimension : Nat)
    (foodPoints initialSpeed speedFoodQuantity speedDecreaseRate expansionRate
      minSpeed : Option ℚ) : GameConfig :=
  { gameDimension := gameDimension
    foodExpansion := foodExpansion expansionRate
    gameFoodPoints := gameFoodPoints foodPoints
    speed := gameSpeedSettings initialSpeed speedDecreaseRate speedFoodQuantity minSpeed }

/-- `getInitialPlayer`: three segments in the centre column
(`center = Math.floor(gameDimension/2)`), head on top. -/
def getInitialPlayer (gameDimension : Nat) : List Coordinate :=
  let center : Int := (gameDimension / 2 : Nat)
  [⟨center, center - 1⟩, ⟨center, center⟩, ⟨center, center + 1⟩]

/-- `player.some(p => p.x === food.x && p.y === food.y)`. -/
def occupies (player : List Coordinate) (c : Coordinate) : Bool :=
  player.any fun p => p.x == c.x && p.y == c.y

/-- `Math.floor` on a rational, written out so the kernel can evaluate it
(`Rat.floor_def` identifies it with `Int.floor`). -/
def jsFloor (a : ℚ) : ℤ := a.num / a.den

/-- One sample of the loop body: `Math.floor(Math.random() * gameDimension)`
for each axis, from one pair of draws. -/
def randCoord (gameDimension : Nat) (r : ℚ × ℚ) : Coordinate :=
  ⟨jsFloor (r.1 * gameDimension), jsFloor (r.2 * gameDimension)⟩

/-- `getNextFood`: rejection sampling over the random stream.  The source's
do-while has no iteration bound, so the recursion is indexed by fuel and
returns `none` when the bound is exhausted; `k` is the position in the
random stream. -/
def getNextFoodFuel (player : List Coordinate) (gameDimension : Nat)
    (rand : ℕ → ℚ × ℚ) : ℕ → ℕ → Option Coordinate
  | _, 0 => none
  | k, fuel + 1 =>
    let food := randCoord gameDimension (rand k)
    if occupies player food then
      getNextFoodFuel player gameDimension rand (k + 1) fuel
    else
      some food

/-- The engine's mutable session state: the refs (`snake`, `foodRef`,
`direction`, `foodBuffer`, `scoreBase`, `gameSpeed`, `gameRunning`) together
with the state flags they track (`score`, `gamePaused`, `gameOver`). -/
structure GameState where
  snake : List Coordinate
  food : Coordinate
  direction : PlayDirection
  foodBuffer : ℚ
  scoreBase : ℕ
  score : ℚ
  gameSpeed : ℚ
  gameRunning : Bool
  gamePaused : Bool
  gameOver : Bool
deriving DecidableEq, Repr

/-- Head displacement of `updatePlayer`'s direction branch
(`y--` / `y++` / `x--` / `x++`). -/
def moveCoord (d : PlayDirection) (c : Coordinate) : Coordinate :=
  match d with
  | .up => ⟨c.x, c.y - 1⟩
  | .down => ⟨c.x, c.y + 1⟩
  | .left => ⟨c.x - 1, c.y⟩
  | .right => ⟨c.x + 1, c.y⟩

/-- The collision test of `updatePlayer`: the moved head is outside the board,
or coincides with one of the pre-move segments of index ≥ 1 (`body`). -/
def collision (gameDimension : Nat) (newHead : Coordinate)
    (body : List Coordinate) : Bool :=
  decide (newHead.x < 0) ||
  decide ((gameDimension : Int) ≤ newHead.x) ||
  decide (newHead.y < 0) ||
  decide ((gameDimension : Int) ≤ newHead.y) ||
  body.any fun p => p.x == newHead.x && p.y == newHead.y

/-- The JS `%` remainder, for a non-negative dividend and positive divisor
(the only case the engine uses: `scoreBase % speedFoodQuantity`). -/
def jsMod (a b : ℚ) : ℚ := a - b * jsFloor (a / b)

/-- The speed-decay block of `updatePlayer`: when the incremented food count
hits a multiple of `speedFoodQuantity`, subtract `speedDecreaseRate/20` of the
current interval, floored at `minSpeed`. -/
def nextGameSpeed (sp : IGameSpeed) (scoreBase : ℕ) (gameSpeed : ℚ) : ℚ :=
  if 0 < scoreBase ∧ jsMod (scoreBase : ℚ) sp.speedFoodQuantity = 0 then
    if sp.minSpeed ≤ gameSpeed - sp.speedDecreaseRate / 20 * gameSpeed then
      gameSpeed - sp.speedDecreaseRate / 20 * gameSpeed
    else
      sp.minSpeed
  else
    gameSpeed

/-- One call of `updatePlayer(selectedDirection)`.  `nextFood` stands for the
`getNextFood` call (the random draws it consumes are an oracle of the grown
snake).  Eating is tested on the PRE-move head against the current food, the
growth buffer is bumped before the move, the collision branch reverts the head
(so the snake keeps its pre-move cells) and flips the run flags, and the
normal branch shifts every segment to its predecessor's pre-move cell and
appends the freed old tail exactly when the buffer is positive. -/
def updatePlayer (cfg : GameConfig) (nextFood : List Coordinate → Coordinate)
    (selectedDirection : PlayDirection) (s : GameState) : GameState :=
  match s.snake with
  | [] => s
  | oldHead :: body =>
    let eating : Bool := oldHead.x == s.food.x && oldHead.y == s.food.y
    let buffer : ℚ := if eating then s.foodBuffer + cfg.foodExpansion else s.foodBuffer
    let newHead := moveCoord selectedDirection oldHead
    if collision cfg.gameDimension newHead body then
      { s with foodBuffer := buffer, gameRunning := false, gameOver := true }
    else
      let shifted := newHead :: (oldHead :: body).dropLast
      if 0 < buffer then
        let grown := shifted ++ [(oldHead :: body).getLastD oldHead]
        if eating then
          let scoreBase1 := s.scoreBase + 1
          { s with snake := grown
                   foodBuffer := buffer - 1
                   scoreBase := scoreBase1
                   score := (scoreBase1 : ℚ) * cfg.gameFoodPoints
                   food := nextFood grown
                   gameSpeed := nextGameSpeed cfg.speed scoreBase1 s.gameSpeed }
        else
          { s with snake := grown, foodBuffer := buffer - 1 }
      else
        { s with snake := shifted, foodBuffer := buffer }

/-- A scheduled timer callback: it runs `playGame`'s `updatePlayer` only while
`gameRunning.current` is set. -/
def doTick (cfg : GameConfig) (nextFood : List Coordinate → Coordinate)
    (s : GameState) : GameState :=
  if s.gameRunning then updatePlayer cfg nextFood s.direction s else s

/-- The flag flips of `pauseStartGame`: `gamePaused := !prev && running`,
`gameRunning := !prev`. -/
def pauseStartGame (s : GameState) : GameState :=
  { s with gamePaused := !s.gamePaused && s.gameRunning
           gameRunning := !s.gameRunning }

/-- The keyboard direction handler: ignored unless the loop is running; a
requested direction that passes `validateDirection` is stored and triggers an
immediate `playGame()` step. -/
def updateDirection (cfg : GameConfig) (nextFood : List Coordinate → Coordinate)
    (d : PlayDirection) (s : GameState) : GameState :=
  if s.gameRunning then
    if validateDirection d s.direction then
      updatePlayer cfg nextFood d { s with direction := d }
    else
      s
  else
    s

/-- `pauseClickOut`: a mouse-down outside the board pauses and stops the loop. -/
def pauseClickOut (s : GameState) : GameState :=
  { s with gamePaused := true, gameRunning := false }

/-- `newGame`: fresh snake/food, direction Up, initial speed, zero score and
growth buffer; the pause/run flags are not touched. -/
def newGame (cfg : GameConfig) (nextFood : List Coordinate → Coordinate)
    (s : GameState) : GameState :=
  let snake0 := getInitialPlayer cfg.gameDimension
  { s with snake := snake0
           food := nextFood snake0
           gameOver := false
           direction := .up
           gameSpeed := cfg.speed.initialSpeed
           score := 0
           scoreBase := 0
           foodBuffer := 0 }

/-- The commands a session can receive between `newGame` calls: a scheduled
tick, the pause/start toggle (space key or button — its flag flips plus the
`useEffect` that fires one immediate step when the run flag turns on), an
arrow-key direction request, and a click outside the board. -/
inductive GameCommand
  | tick
  | toggle
  | setDirection (d : PlayDirection)
  | clickOut
deriving DecidableEq, Repr

/-- Dispatch one command. -/
def stepCommand (cfg : GameConfig) (nextFood : List Coordinate → Coordinate)
    (s : GameState) : GameCommand → GameState
  | .tick => doTick cfg nextFood s
  | .toggle => doTick cfg nextFood (pauseStartGame s)
  | .setDirection d => updateDirection cfg nextFood d s
  | .clickOut => pauseClickOut s

/-- Run a whole command sequence. -/
def runCommands (cfg : GameConfig) (nextFood : List Coordinate → Coordinate)
    (cmds : List GameCommand) (s : GameState) : GameState :=
  cmds.foldl (stepCommand cfg nextFood) s

/-- A state from which the next move in the current direction collides: the
shape every game-over state has, since the colliding move is reverted. -/
def frozenOver (cfg : GameConfig) (s : GameState) : Prop :=
  s.gameOver = true ∧ s.gameRunning = false ∧
    ∃ hd body, s.snake = hd :: body ∧
      collision cfg.gameDimension (moveCoord s.direction hd) body = true

/-- A food-placement oracle that always answers the origin, used to
instantiate concrete scenarios. -/
def spawnZero : List Coordinate → Coordinate := fun _ => ⟨0, 0⟩

/-- The 10×10 configuration of the spec's scenarios: `cellGrowthPerFood = 1`,
`scorePerFood = 1`, all speed settings defaulted. -/
def cfgScenario : GameConfig := mkGameConfig 10 (some 1) none none none (some 1) none

/-- The spec's scenario start state: snake `[(5,4),(5,5),(5,6)]` moving Up,
food at `(5,3)`. -/
def stateScenario : GameState :=
  { snake := [⟨5, 4⟩, ⟨5, 5⟩, ⟨5, 6⟩], food := ⟨5, 3⟩, direction := .up,
    foodBuffer := 0, scoreBase := 0, score := 0, gameSpeed := 250,
    gameRunning := true, gamePaused := false, gameOver := false }

/-- The state one tick later: the moved head now sits on the food cell and no
growth is pending yet. -/
def stateHeadOnFood : GameState :=
  { snake := [⟨5, 3⟩, ⟨5, 4⟩, ⟨5, 5⟩], food := ⟨5, 3⟩, direction := .up,
    foodBuffer := 0, scoreBase := 0, score := 0, gameSpeed := 250,
    gameRunning := true, gamePaused := false, gameOver := false }

/-- A running state whose head is about to leave the board on the left. -/
def stateAtWall : GameState :=
  { snake := [⟨0, 4⟩, ⟨1, 4⟩, ⟨2, 4⟩], food := ⟨7, 7⟩, direction := .left,
    foodBuffer := 0, scoreBase := 0, score := 0, gameSpeed := 250,
    gameRunning := true, gamePaused := false, gameOver := false }

/-- The `eating` test `updatePlayer` performs at the start of a tick: the
PRE-move head sits on the current food cell. -/
def eatingNow (s : GameState) : Bool :=
  match s.snake with
  | [] => false
  | hd :: _ => hd.x == s.food.x && hd.y == s.food.y

lemma jsFloor_eq_floor (a : ℚ) : jsFloor a = ⌊a⌋ := Rat.floor_def.symm

lemma randCoord_mem (d : ℕ) (hd : 0 < d) (r : ℚ × ℚ)
    (h1 : 0 ≤ r.1) (h2 : r.1 < 1) (h3 : 0 ≤ r.2) (h4 : r.2 < 1) :
    0 ≤ (randCoord d r).x ∧ (randCoord d r).x < d ∧
      0 ≤ (randCoord d r).y ∧ (randCoord d r).y < d := by
  have hdq : (0 : ℚ) < d := by exact_mod_cast hd
  refine ⟨?_, ?_, ?_, ?_⟩
  · simpa [randCoord, jsFloor_eq_floor] using Int.floor_nonneg.mpr (mul_nonneg h1 hdq.le)
  · have : r.1 * d < d := by
      calc r.1 * d < 1 * d := by exact mul_lt_mul_of_pos_right h2 hdq
        _ = d := one_mul _
    simpa [randCoord, jsFloor_eq_floor] using Int.floor_lt.mpr (by exact_mod_cast this)
  · simpa [randCoord, jsFloor_eq_floor] using Int.floor_nonneg.mpr (mul_nonneg h3 hdq.le)
  · have : r.2 * d < d := by
      calc r.2 * d < 1 * d := by exact mul_lt_mul_of_pos_right h4 hdq
        _ = d := one_mul _
    simpa [randCoord, jsFloor_eq_floor] using Int.floor_lt.mpr (by exact_mod_cast this)

lemma updatePlayer_collision (cfg : GameConfig) (nf : List Coordinate → Coordinate)
    (d : PlayDirection) (s : GameState) (hd : Coordinate) (body : List Coordinate)
    (hsnake : s.snake = hd :: body)
    (hcol : collision cfg.gameDimension (moveCoord d hd) body = true) :
    updatePlayer cfg nf d s =
      { s with foodBuffer :=
                 if hd.x == s.food.x && hd.y == s.food.y then
                   s.foodBuffer + cfg.foodExpansion
                 else s.foodBuffer
               gameRunning := false
               gameOver := true } := by
  simp only [updatePlayer, hsnake, hcol, if_true]

lemma gameSpeedSettings_initialSpeed_gt (a b c d : Option ℚ) :
    100 < (gameSpeedSettings a b c d).initialSpeed := by
  rcases a with _ | v
  · norm_num [gameSpeedSettings]
  · simp only [gameSpeedSettings]
    split_ifs with h
    · exact h.2.1
    · norm_num

lemma gameSpeedSettings_rate_bounds (a b c d : Option ℚ) :
    0 ≤ (gameSpeedSettings a b c d).speedDecreaseRate ∧
      (gameSpeedSettings a b c d).speedDecreaseRate ≤ 10 := by
  rcases b with _ | v
  · norm_num [gameSpeedSettings]
  · simp only [gameSpeedSettings]
    split_ifs with h
    · exact ⟨h.2.1, h.2.2⟩
    · norm_num

lemma gameSpeedSettings_minSpeed_bounds (a b c d : Option ℚ) :
    0 < (gameSpeedSettings a b c d).minSpeed ∧
      (gameSpeedSettings a b c d).minSpeed < (gameSpeedSettings a b c d).initialSpeed := by
  have hbase := gameSpeedSettings_initialSpeed_gt a b c d
  rcases d with _ | v
  · refine ⟨by norm_num [gameSpeedSettings], ?_⟩
    simp only [gameSpeedSettings] at hbase ⊢
    linarith
  · simp only [gameSpeedSettings] at hbase ⊢
    split_ifs with h
    · exact ⟨h.2.1, h.2.2⟩
    · exact ⟨by norm_num, by linarith⟩

lemma gameSpeedSettings_quantity_pos (a b c d : Option ℚ) :
    0 < (gameSpeedSettings a b c d).speedFoodQuantity := by
  rcases c with _ | v
  · norm_num [gameSpeedSettings]
  · simp only [gameSpeedSettings]
    split_ifs with h
    · exact h.2
    · norm_num

lemma nextGameSpeed_bounds (sp : IGameSpeed) (n : ℕ) (speed : ℚ)
    (hrate : 0 ≤ sp.speedDecreaseRate) (hmin : 0 < sp.minSpeed)
    (hle : sp.minSpeed ≤ speed) :
    sp.minSpeed ≤ nextGameSpeed sp n speed ∧ nextGameSpeed sp n speed ≤ speed := by
  have hdecay : 0 ≤ sp.speedDecreaseRate / 20 * speed := by
    have hs : 0 ≤ speed := le_trans hmin.le hle
    have := div_nonneg hrate (by norm_num : (0:ℚ) ≤ 20)
    exact mul_nonneg this hs
  unfold nextGameSpeed
  split_ifs with h1 h2
  · exact ⟨h2, by linarith⟩
  · exact ⟨le_refl _, hle⟩
  · exact ⟨hle, le_refl _⟩

lemma nextGameSpeed_change (sp : IGameSpeed) (n : ℕ) (speed : ℚ)
    (h : nextGameSpeed sp n speed ≠ speed) :
    jsMod (n : ℚ) sp.speedFoodQuantity = 0 ∧
      nextGameSpeed sp n speed =
        max (speed - sp.speedDecreaseRate / 20 * speed) sp.minSpeed := by
  unfold nextGameSpeed at h ⊢
  split_ifs at h ⊢ with h1 h2
  · exact ⟨h1.2, (max_eq_left h2).symm⟩
  · exact ⟨h1.2, (max_eq_right (le_of_not_le h2)).symm⟩
  · exact absurd rfl h

lemma updatePlayer_gameSpeed (cfg : GameConfig) (nf : List Coordinate → Coordinate)
    (d : PlayDirection) (s : GameState) :
    ((updatePlayer cfg nf d s).gameSpeed = s.gameSpeed ∧
      (updatePlayer cfg nf d s).scoreBase = s.scoreBase) ∨
    ((updatePlayer cfg nf d s).gameSpeed =
        nextGameSpeed cfg.speed (s.scoreBase + 1) s.gameSpeed ∧
      (updatePlayer cfg nf d s).scoreBase = s.scoreBase + 1) := by
  cases hs : s.snake with
  | nil => left; simp [updatePlayer, hs]
  | cons hd body =>
    simp only [updatePlayer, hs]
    split_ifs <;> simp

lemma stepCommand_gameSpeed (cfg : GameConfig) (nf : List Coordinate → Coordinate)
    (s : GameState) (c : GameCommand) :
    ((stepCommand cfg nf s c).gameSpeed = s.gameSpeed ∧
      (stepCommand cfg nf s c).scoreBase = s.scoreBase) ∨
    ((stepCommand cfg nf s c).gameSpeed =
        nextGameSpeed cfg.speed (s.scoreBase + 1) s.gameSpeed ∧
      (stepCommand cfg nf s c).scoreBase = s.scoreBase + 1) := by
  cases c with
  | tick =>
    simp only [stepCommand, doTick]
    split_ifs with h
    · exact updatePlayer_gameSpeed cfg nf s.direction s
    · left; exact ⟨rfl, rfl⟩
  | toggle =>
    simp only [stepCommand, doTick]
    split_ifs with h
    · simpa [pauseStartGame] using
        updatePlayer_gameSpeed cfg nf (pauseStartGame s).direction (pauseStartGame s)
    · left; simp [pauseStartGame]
  | setDirection d =>
    simp only [stepCommand, updateDirection]
    split_ifs with h1 h2
    · simpa using updatePlayer_gameSpeed cfg nf d { s with direction := d }
    · left; exact ⟨rfl, rfl⟩
    · left; exact ⟨rfl, rfl⟩
  | clickOut => left; simp [stepCommand, pauseClickOut]

lemma stepCommand_speed_inv (cfg : GameConfig) (nf : List Coordinate → Coordinate)
    (s : GameState) (c : GameCommand)
    (hrate : 0 ≤ cfg.speed.speedDecreaseRate) (hminpos : 0 < cfg.speed.minSpeed)
    (hmin : cfg.speed.minSpeed ≤ s.gameSpeed) :
    cfg.speed.minSpeed ≤ (stepCommand cfg nf s c).gameSpeed ∧
      (stepCommand cfg nf s c).gameSpeed ≤ s.gameSpeed := by
  rcases stepCommand_gameSpeed cfg nf s c with ⟨h, _⟩ | ⟨h, _⟩
  · rw [h]; exact ⟨hmin, le_refl _⟩
  · rw [h]; exact nextGameSpeed_bounds _ _ _ hrate hminpos hmin

lemma runCommands_cons (cfg : GameConfig) (nf : List Coordinate → Coordinate)
    (c : GameCommand) (cs : List GameCommand) (s : GameState) :
    runCommands cfg nf (c :: cs) s = runCommands cfg nf cs (stepCommand cfg nf s c) := by
  simp [runCommands]

lemma runCommands_speed_inv (cfg : GameConfig) (nf : List Coordinate → Coordinate)
    (cmds : List GameCommand) (s : GameState)
    (hrate : 0 ≤ cfg.speed.speedDecreaseRate) (hminpos : 0 < cfg.speed.minSpeed)
    (hmin : cfg.speed.minSpeed ≤ s.gameSpeed) :
    cfg.speed.minSpeed ≤ (runCommands cfg nf cmds s).gameSpeed := by
  induction cmds generalizing s with
  | nil => exact hmin
  | cons c cs ih =>
    rw [runCommands_cons]
    exact ih _ (stepCommand_speed_inv cfg nf s c hrate hminpos hmin).1

lemma stepCommand_frozen (cfg : GameConfig) (nf : List Coordinate → Coordinate)
    (s : GameState) (c : GameCommand) (h : frozenOver cfg s) :
    frozenOver cfg (stepCommand cfg nf s c) ∧
      (stepCommand cfg nf s c).snake = s.snake ∧
      (stepCommand cfg nf s c).score = s.score ∧
      (stepCommand cfg nf s c).food = s.food := by
  obtain ⟨hover, hrun, hd, body, hsnake, hcol⟩ := h
  cases c with
  | tick =>
    have hstep : stepCommand cfg nf s .tick = s := by simp [stepCommand, doTick, hrun]
    rw [hstep]
    exact ⟨⟨hover, hrun, hd, body, hsnake, hcol⟩, rfl, rfl, rfl⟩
  | toggle =>
    have hflip : (pauseStartGame s).gameRunning = true := by simp [pauseStartGame, hrun]
    have hstep : stepCommand cfg nf s .toggle =
        updatePlayer cfg nf (pauseStartGame s).direction (pauseStartGame s) := by
      simp [stepCommand, doTick, hflip]
    have hupd := updatePlayer_collision cfg nf (pauseStartGame s).direction
      (pauseStartGame s) hd body hsnake hcol
    rw [hstep, hupd]
    exact ⟨⟨rfl, rfl, hd, body, hsnake, hcol⟩, rfl, rfl, rfl⟩
  | setDirection d =>
    have hstep : stepCommand cfg nf s (.setDirection d) = s := by
      simp [stepCommand, updateDirection, hrun]
    rw [hstep]
    exact ⟨⟨hover, hrun, hd, body, hsnake, hcol⟩, rfl, rfl, rfl⟩
  | clickOut =>
    exact ⟨⟨hover, rfl, hd, body, hsnake, hcol⟩, rfl, rfl, rfl⟩

lemma runCommands_frozen (cfg : GameConfig) (nf : List Coordinate → Coordinate)
    (cmds : List GameCommand) (s : GameState) (h : frozenOver cfg s) :
    frozenOver cfg (runCommands cfg nf cmds s) ∧
      (runCommands cfg nf cmds s).snake = s.snake ∧
      (runCommands cfg nf cmds s).score = s.score ∧
      (runCommands cfg nf cmds s).food = s.food := by
  induction cmds generalizing s with
  | nil => exact ⟨h, rfl, rfl, rfl⟩
  | cons c cs ih =>
    rw [runCommands_cons]
    obtain ⟨h1, h2, h3, h4⟩ := stepCommand_frozen cfg nf s c h
    obtain ⟨g1, g2, g3, g4⟩ := ih (stepCommand cfg nf s c) h1
    exact ⟨g1, g2.trans h2, g3.trans h3, g4.trans h4⟩

/-- Claim C2, counterexample: the validator does NOT return true when the
requested direction equals the current one — `validateDirection(UP, UP)` is
`false`, because the guard also rejects the `d1 === d2` case. -/
theorem validateDirection_rejects_same : validateDirection .up .up = false := by
  decide

/-- Claim C2, amended: `validateDirection requested current` returns true iff
requested is neither equal to current nor its exact opposite, i.e. exactly for
the two perpendicular directions; it returns false both on the exact opposite
and on the same direction. -/
theorem validateDirection_true_iff (d1 d2 : PlayDirection) :
    validateDirection d1 d2 = true ↔ d1 ≠ d2 ∧ d1 ≠ oppositeDirection d2 := by
  cases d1 <;> cases d2 <;> decide

/-- Claim C5 (code bug): the spec documents `speedDecayPercent` as clamped to
`[0,10]` with a provided `0` preserved, and the code's own range check reads
`speedDecreaseRate >= 0`; but the JS truthiness guard `speedDecreaseRate && …`
makes a provided `0` falsy, so it falls back to the default `1` instead of
being preserved.  The missing `initialSpeed` defaulting to 250 does hold. -/
theorem speedDecreaseRate_zero_not_preserved :
    (gameSpeedSettings none (some 0) none none).speedDecreaseRate = 1 ∧
      (gameSpeedSettings none none none none).initialSpeed = 250 := by
  decide

/-- Claim C7 (code bug): `getNextFood` has no retry bound and no board-full
signal.  On a 1×1 board fully occupied by the snake every draw of the valid
random stream is rejected, so the sampling loop never produces a result for
ANY retry bound — the modelled loop returns `none` at every fuel, which is the
fuel-indexed image of the do-while hanging forever. -/
theorem getNextFood_full_board_loops (fuel k : ℕ) :
    getNextFoodFuel [⟨0, 0⟩] 1 (fun _ => ((0 : ℚ), (0 : ℚ))) k fuel = none := by
  induction fuel generalizing k with
  | zero => rfl
  | succ n ih =>
    have hocc : occupies [(⟨0, 0⟩ : Coordinate)] (randCoord 1 ((0 : ℚ), (0 : ℚ))) = true := by
      norm_num [occupies, randCoord, jsFloor]
    simp only [getNextFoodFuel, hocc, if_true]
    exact ih (k + 1)

/-- Claim C10 (confirmed): for every dimension, `newGame` (and the initial
mount, which uses the same `getInitialPlayer`) yields the three-segment snake
in the centre column `c = ⌊dimension/2⌋` — head `(c, c-1)`, then `(c, c)`,
tail `(c, c+1)` — with direction Up, score 0, no pending growth, and speed
equal to the validated initial speed. -/
theorem newGame_initial_state (gameDimension : ℕ)
    (p1 p2 p3 p4 p5 p6 : Option ℚ) (nf : List Coordinate → Coordinate)
    (s : GameState) :
    let cfg := mkGameConfig gameDimension p1 p2 p3 p4 p5 p6
    let c : ℤ := (gameDimension / 2 : ℕ)
    (newGame cfg nf s).snake = [⟨c, c - 1⟩, ⟨c, c⟩, ⟨c, c + 1⟩] ∧
      (newGame cfg nf s).snake = getInitialPlayer gameDimension ∧
      (newGame cfg nf s).direction = .up ∧
      (newGame cfg nf s).score = 0 ∧
      (newGame cfg nf s).scoreBase = 0 ∧
      (newGame cfg nf s).foodBuffer = 0 ∧
      (newGame cfg nf s).gameSpeed = cfg.speed.initialSpeed ∧
      (newGame cfg nf s).gameOver = false := by
  intro cfg c
  exact ⟨rfl, rfl, rfl, rfl, rfl, rfl, rfl, rfl⟩

/-- Claim C1, counterexample: in the spec's scenario (10×10, snake
`[(5,4),(5,5),(5,6)]` moving Up, food at `(5,3)`), the tick whose moved head
lands on `(5,3)` does NOT score and does NOT spawn food: `eating` is tested on
the pre-move head, so that tick leaves score 0, food `(5,3)`, and no pending
growth — refuting "the tick that reaches (5,3) yields score = 1 and a new food
cell". -/
theorem landing_tick_scores_nothing :
    (doTick cfgScenario spawnZero stateScenario).snake = [⟨5, 3⟩, ⟨5, 4⟩, ⟨5, 5⟩] ∧
      (doTick cfgScenario spawnZero stateScenario).score = 0 ∧
      (doTick cfgScenario spawnZero stateScenario).food = ⟨5, 3⟩ ∧
      (doTick cfgScenario spawnZero stateScenario).foodBuffer = 0 ∧
      ¬ (doTick cfgScenario spawnZero stateScenario).score = 1 := by
  norm_num [doTick, updatePlayer, collision, moveCoord, nextGameSpeed, jsMod, jsFloor,
    cfgScenario, spawnZero, stateScenario, mkGameConfig, foodExpansion, gameFoodPoints,
    gameSpeedSettings]

/-- Claim C1, amended: eating is detected on the tick whose PRE-move head sits
on the current food cell — one tick after the moved head lands on it.  On that
later tick `pendingGrowth` is incremented by `cellGrowthPerFood` and consumed,
the score becomes `foodEatenCount * scorePerFood`, and a new food cell is
spawned.  Concretely: the tick that reaches `(5,3)` leaves score 0 and food
unchanged; the following tick yields score 1, snake length 4, and a new food
cell (here `(0,0)`, the value the sampler returns on draws `(0,0)` against the
grown snake). -/
theorem eating_effects_one_tick_later :
    (doTick cfgScenario spawnZero stateScenario).score = 0 ∧
      (doTick cfgScenario spawnZero stateScenario).food = ⟨5, 3⟩ ∧
      (doTick cfgScenario spawnZero (doTick cfgScenario spawnZero stateScenario)).snake =
        [⟨5, 2⟩, ⟨5, 3⟩, ⟨5, 4⟩, ⟨5, 5⟩] ∧
      (doTick cfgScenario spawnZero (doTick cfgScenario spawnZero stateScenario)).score = 1 ∧
      (doTick cfgScenario spawnZero (doTick cfgScenario spawnZero stateScenario)).scoreBase = 1 ∧
      (doTick cfgScenario spawnZero (doTick cfgScenario spawnZero stateScenario)).foodBuffer = 0 ∧
      (doTick cfgScenario spawnZero (doTick cfgScenario spawnZero stateScenario)).food = ⟨0, 0⟩ ∧
      getNextFoodFuel [⟨5, 2⟩, ⟨5, 3⟩, ⟨5, 4⟩, ⟨5, 5⟩] 10 (fun _ => ((0 : ℚ), (0 : ℚ))) 0 1 =
        some ⟨0, 0⟩ := by
  norm_num [doTick, updatePlayer, collision, moveCoord, nextGameSpeed, jsMod, jsFloor,
    cfgScenario, spawnZero, stateScenario, mkGameConfig, foodExpansion, gameFoodPoints,
    gameSpeedSettings, getNextFoodFuel, randCoord, occupies]

/-- Claim C9, counterexample: a tick can grow the snake by one even though
`pendingGrowth` was 0 before the tick began: when the pre-move head sits on
the food, the buffer is bumped at the start of the SAME tick and consumed by
its tail append. -/
theorem growth_without_prior_pendingGrowth :
    (doTick cfgScenario spawnZero stateHeadOnFood).snake.length =
        stateHeadOnFood.snake.length + 1 ∧
      ¬ 0 < stateHeadOnFood.foodBuffer := by
  norm_num [doTick, updatePlayer, collision, moveCoord, nextGameSpeed, jsMod, jsFloor,
    cfgScenario, spawnZero, stateHeadOnFood, mkGameConfig, foodExpansion, gameFoodPoints,
    gameSpeedSettings]

/-- Claim C9, amended: after any tick the snake's length equals its previous
length, or its previous length + 1; the +1 case occurs only if the growth
buffer was positive at the tick's append test, i.e. `pendingGrowth` was
strictly positive before the tick began OR the tick detected eating (pre-move
head on the food), which increments the buffer at the start of the tick. -/
theorem tick_length_step (cfg : GameConfig) (nf : List Coordinate → Coordinate)
    (d : PlayDirection) (s : GameState) :
    (updatePlayer cfg nf d s).snake.length = s.snake.length ∨
      ((updatePlayer cfg nf d s).snake.length = s.snake.length + 1 ∧
        (0 < s.foodBuffer ∨ eatingNow s = true)) := by
  cases hs : s.snake with
  | nil => left; simp [updatePlayer, hs]
  | cons hd body =>
    have heatdef : eatingNow s = (hd.x == s.food.x && hd.y == s.food.y) := by
      simp [eatingNow, hs]
    simp only [updatePlayer, hs]
    cases heat : (hd.x == s.food.x && hd.y == s.food.y) with
    | true =>
      simp only [heat, if_true]
      split_ifs with hcol hbuf
      · left; simp [hs]
      · right
        constructor
        · simp [hs, List.length_dropLast]
        · right; rw [heatdef, heat]
      · left; simp [hs, List.length_dropLast]
    | false =>
      simp only [heat, Bool.false_eq_true, if_false]
      split_ifs with hcol hbuf
      · left; simp [hs]
      · right
        constructor
        · simp [hs, List.length_dropLast]
        · left; exact hbuf
      · left; simp [hs, List.length_dropLast]

/-- Claim C3 (confirmed): on a running state whose moved head leaves the board
or lands on a pre-move body segment (index ≥ 1), the tick ends with run state
Over, the loop stopped, the snake on exactly its pre-move cells (the head is
reverted), the score and food untouched; and the transition is terminal — a
further scheduled tick is a no-op. -/
theorem collision_tick_terminal (cfg : GameConfig) (nf : List Coordinate → Coordinate)
    (s : GameState) (hd : Coordinate) (body : List Coordinate)
    (hrun : s.gameRunning = true) (hsnake : s.snake = hd :: body)
    (hcol : (moveCoord s.direction hd).x < 0 ∨
        (cfg.gameDimension : ℤ) ≤ (moveCoord s.direction hd).x ∨
        (moveCoord s.direction hd).y < 0 ∨
        (cfg.gameDimension : ℤ) ≤ (moveCoord s.direction hd).y ∨
        moveCoord s.direction hd ∈ body) :
    (doTick cfg nf s).gameOver = true ∧
      (doTick cfg nf s).gameRunning = false ∧
      (doTick cfg nf s).snake = s.snake ∧
      (doTick cfg nf s).score = s.score ∧
      (doTick cfg nf s).food = s.food ∧
      doTick cfg nf (doTick cfg nf s) = doTick cfg nf s := by
  have hcolb : collision cfg.gameDimension (moveCoord s.direction hd) body = true := by
    simp only [collision, Bool.or_eq_true, decide_eq_true_eq, List.any_eq_true,
      Bool.and_eq_true, beq_iff_eq]
    rcases hcol with h | h | h | h | h
    · exact Or.inl (Or.inl (Or.inl (Or.inl h)))
    · exact Or.inl (Or.inl (Or.inl (Or.inr h)))
    · exact Or.inl (Or.inl (Or.inr h))
    · exact Or.inl (Or.inr h)
    · exact Or.inr ⟨_, h, rfl, rfl⟩
  have hstep : doTick cfg nf s = updatePlayer cfg nf s.direction s := by
    simp [doTick, hrun]
  have hupd := updatePlayer_collision cfg nf s.direction s hd body hsnake hcolb
  rw [hstep, hupd]
  exact ⟨rfl, rfl, rfl, rfl, rfl, by simp [doTick]⟩

/-- Witness for C3: from `stateAtWall` (head `(0,4)` moving Left on the 10×10
board) the tick transitions to Over with the snake unchanged. -/
theorem collision_tick_terminal_witness :
    (doTick cfgScenario spawnZero stateAtWall).gameOver = true ∧
      (doTick cfgScenario spawnZero stateAtWall).snake = stateAtWall.snake ∧
      (doTick cfgScenario spawnZero stateAtWall).score = stateAtWall.score := by
  have h := collision_tick_terminal cfgScenario spawnZero stateAtWall ⟨0, 4⟩
    [⟨1, 4⟩, ⟨2, 4⟩] rfl rfl (Or.inl (by norm_num [stateAtWall, moveCoord]))
  exact ⟨h.1, h.2.2.1, h.2.2.2.1⟩

/-- Claim C6 (confirmed): for every snake and every stream of valid random
draws (each in `[0,1)`), whenever the rejection-sampling food placement
returns a coordinate, that coordinate lies inside the board and is not on any
snake segment. -/
theorem getNextFood_inside_and_off_snake (player : List Coordinate)
    (gameDimension : ℕ) (rand : ℕ → ℚ × ℚ) (k fuel : ℕ) (food : Coordinate)
    (hdim : 0 < gameDimension)
    (hrand : ∀ n, 0 ≤ (rand n).1 ∧ (rand n).1 < 1 ∧ 0 ≤ (rand n).2 ∧ (rand n).2 < 1)
    (hres : getNextFoodFuel player gameDimension rand k fuel = some food) :
    (0 ≤ food.x ∧ food.x < (gameDimension : ℤ) ∧
      0 ≤ food.y ∧ food.y < (gameDimension : ℤ)) ∧
      occupies player food = false := by
  induction fuel generalizing k with
  | zero => simp [getNextFoodFuel] at hres
  | succ n ih =>
    simp only [getNextFoodFuel] at hres
    by_cases hocc : occupies player (randCoord gameDimension (rand k)) = true
    · rw [if_pos hocc] at hres
      exact ih (k + 1) hres
    · rw [if_neg hocc] at hres
      obtain rfl : randCoord gameDimension (rand k) = food := Option.some.inj hres
      obtain ⟨r1, r2, r3, r4⟩ := hrand k
      obtain ⟨b1, b2, b3, b4⟩ := randCoord_mem gameDimension hdim (rand k) r1 r2 r3 r4
      exact ⟨⟨b1, b2, b3, b4⟩, Bool.not_eq_true _ ▸ hocc⟩

/-- Witness for C6: one accepted draw on a 2×2 board with the snake at
`(1,1)` yields the in-bounds, unoccupied cell `(0,0)`. -/
theorem getNextFood_inside_and_off_snake_witness :
    (0 ≤ (⟨0, 0⟩ : Coordinate).x ∧ (⟨0, 0⟩ : Coordinate).x < ((2 : ℕ) : ℤ) ∧
      0 ≤ (⟨0, 0⟩ : Coordinate).y ∧ (⟨0, 0⟩ : Coordinate).y < ((2 : ℕ) : ℤ)) ∧
      occupies [⟨1, 1⟩] ⟨0, 0⟩ = false :=
  getNextFood_inside_and_off_snake [⟨1, 1⟩] 2 (fun _ => ((0 : ℚ), (0 : ℚ))) 0 1 ⟨0, 0⟩
    (by norm_num) (fun n => by norm_num)
    (by norm_num [getNextFoodFuel, randCoord, occupies, jsFloor])

/-- Claim C4 (confirmed): over every game session — any sequence of ticks and
commands after `newGame` under a validated configuration — `currentSpeedMs`
stays at or above `minSpeedMs`, never increases from one command to the next,
and when it does change the new food-eaten count is a multiple of
`foodCountPerSpeedStep` (the code's `scoreBase % speedFoodQuantity === 0`) and
the new value is `max(speed - speedDecreaseRate/20 * speed, minSpeed)`. -/
theorem currentSpeed_session_invariant (gameDimension : ℕ)
    (p1 p2 p3 p4 p5 p6 : Option ℚ) (nf : List Coordinate → Coordinate)
    (start : GameState) (cmds : List GameCommand) (c : GameCommand) :
    let cfg := mkGameConfig gameDimension p1 p2 p3 p4 p5 p6
    let t := runCommands cfg nf cmds (newGame cfg nf start)
    let u := stepCommand cfg nf t c
    cfg.speed.minSpeed ≤ t.gameSpeed ∧
      u.gameSpeed ≤ t.gameSpeed ∧
      (u.gameSpeed = t.gameSpeed ∨
        (jsMod (u.scoreBase : ℚ) cfg.speed.speedFoodQuantity = 0 ∧
          u.gameSpeed =
            max (t.gameSpeed - cfg.speed.speedDecreaseRate / 20 * t.gameSpeed)
              cfg.speed.minSpeed)) := by
  intro cfg t u
  have hrate : 0 ≤ cfg.speed.speedDecreaseRate :=
    (gameSpeedSettings_rate_bounds p2 p4 p3 p6).1
  have hminpos : 0 < cfg.speed.minSpeed :=
    (gameSpeedSettings_minSpeed_bounds p2 p4 p3 p6).1
  have hminlt : cfg.speed.minSpeed < cfg.speed.initialSpeed :=
    (gameSpeedSettings_minSpeed_bounds p2 p4 p3 p6).2
  have hinit : cfg.speed.minSpeed ≤ (newGame cfg nf start).gameSpeed := hminlt.le
  have h1 : cfg.speed.minSpeed ≤ t.gameSpeed :=
    runCommands_speed_inv cfg nf cmds _ hrate hminpos hinit
  have h2 := stepCommand_speed_inv cfg nf t c hrate hminpos h1
  refine ⟨h1, h2.2, ?_⟩
  by_cases heq : u.gameSpeed = t.gameSpeed
  · exact Or.inl heq
  · right
    rcases stepCommand_gameSpeed cfg nf t c with ⟨ha, _⟩ | ⟨ha, hb⟩
    · exact absurd ha heq
    · have hch := nextGameSpeed_change cfg.speed (t.scoreBase + 1) t.gameSpeed
        (fun hcontra => heq (ha.trans hcontra))
      refine ⟨?_, ha.trans hch.2⟩
      rw [show u.scoreBase = t.scoreBase + 1 from hb]
      exact_mod_cast hch.1

/-- Claim C8 (confirmed): after a collision tick the session is frozen — for
every subsequent command sequence (pause/start toggles, direction requests,
scheduled ticks, outside clicks; everything except `newGame`) the run state
stays Over and the snake, score and food never change.  A toggle does restart
the loop flag, but the immediately fired step re-collides on the same reverted
head and stops it again, so nothing observable moves. -/
theorem over_state_frozen (cfg : GameConfig) (nf : List Coordinate → Coordinate)
    (s0 : GameState) (hd : Coordinate) (body : List Coordinate)
    (cmds : List GameCommand)
    (hsnake : s0.snake = hd :: body)
    (hcol : collision cfg.gameDimension (moveCoord s0.direction hd) body = true) :
    (runCommands cfg nf cmds (updatePlayer cfg nf s0.direction s0)).gameOver = true ∧
      (runCommands cfg nf cmds (updatePlayer cfg nf s0.direction s0)).snake = s0.snake ∧
      (runCommands cfg nf cmds (updatePlayer cfg nf s0.direction s0)).score = s0.score ∧
      (runCommands cfg nf cmds (updatePlayer cfg nf s0.direction s0)).food = s0.food := by
  have hupd := updatePlayer_collision cfg nf s0.direction s0 hd body hsnake hcol
  have hfrozen : frozenOver cfg (updatePlayer cfg nf s0.direction s0) := by
    rw [hupd]
    exact ⟨rfl, rfl, hd, body, hsnake, hcol⟩
  obtain ⟨⟨g0, _, _⟩, g1, g2, g3⟩ :=
    runCommands_frozen cfg nf cmds (updatePlayer cfg nf s0.direction s0) hfrozen
  have hsn : (updatePlayer cfg nf s0.direction s0).snake = s0.snake := by rw [hupd]
  have hsc : (updatePlayer cfg nf s0.direction s0).score = s0.score := by rw [hupd]
  have hfd : (updatePlayer cfg nf s0.direction s0).food = s0.food := by rw [hupd]
  exact ⟨g0, g1.trans hsn, g2.trans hsc, g3.trans hfd⟩

/-- Witness for C8: after the wall collision from `stateAtWall`, a toggle, a
scheduled tick, a direction request and another toggle leave the state Over
with the snake still on its pre-collision cells. -/
theorem over_state_frozen_witness :
    (runCommands cfgScenario spawnZero [.toggle, .tick, .setDirection .right, .toggle]
        (updatePlayer cfgScenario spawnZero stateAtWall.direction stateAtWall)).gameOver
        = true ∧
      (runCommands cfgScenario spawnZero [.toggle, .tick, .setDirection .right, .toggle]
        (updatePlayer cfgScenario spawnZero stateAtWall.direction stateAtWall)).snake
        = stateAtWall.snake := by
  have h := over_state_frozen cfgScenario spawnZero stateAtWall ⟨0, 4⟩ [⟨1, 4⟩, ⟨2, 4⟩]
    [.toggle, .tick, .setDirection .right, .toggle] rfl (by decide)
  exact ⟨h.1, h.2.1⟩

end KjohnSnake
